import Mathlib

/-!
ze_oss: trajectory association, result serialisation, camera and IMU helpers

A shallow embedding of

* `ze_trajectory_analysis/src/kitti_evaluation_node.cpp` (`loadData`, the association loop of
  `main`, the result filename and the CSV writer),
* `include/ze/cameras/camera_utils.h` (`isVisible`, `isVisibleWithMargin`),
* `ze_imu/include/ze/imu/imu_types.hpp` (`getAcc`, `getGyr`),

together with theorems about these definitions.

Conventions.  `int64_t` and `int` values are unbounded `Int`s: signed overflow is undefined
behaviour in C++ and every statement below is about runs without overflow.  A fatal glog
failure (`LOG(FATAL)`, a failed `CHECK`) is the `Except.error` result of the embedded
function.  Poses (`ze::Transformation`) and raw pose data (`ze::Vector7`) are opaque to the
node, so they are type parameters `P` and `V`.
-/

namespace ze

/-! ## Fatal failures -/

/-- The two ways the evaluation node aborts by itself. -/
inductive Fatal where
  /-- `LOG(FATAL) << "Format " << format << " is not supported."` in `loadData`. -/
  | unsupportedFormat (format : String)
  /-- `CHECK(success)` in the association loop. -/
  | checkFailed
  deriving DecidableEq, Repr

/-! ## The groundtruth buffer -/

/-- The `std::abs` of `<cstdlib>` on `int64_t`. -/
def std_abs (x : Int) : Int := if x < 0 then -x else x

/-- The content of `gt_data->getBuffer()`: the stored `(timestamp, data)` entries. -/
abbrev Buffer (V : Type) := List (Int × V)

/-- Modelled from the spec: one comparison of the nearest-entry search of
`Buffer::getNearestValue` (not part of the sources at hand); `cand` replaces `best` when it
is strictly closer to the query `q`. -/
def nearer {V : Type} (q : Int) (best cand : Int × V) : Int × V :=
  if std_abs (cand.1 - q) < std_abs (best.1 - q) then cand else best

/-- Modelled from the spec: `Buffer::getNearestValue` (ze_common) is not part of the
sources at hand.  Section 4.1 of the specification: it "returns the stored entry whose
timestamp is closest to the query; `found` is false only if the series is empty".
`none` stands for `found = false`, `some (stamp, data)` for `found = true`.  The
specification fixes no tie-break; here the earliest stored entry among the closest wins. -/
def getNearestValue {V : Type} : Buffer V → Int → Option (Int × V)
  | [], _ => none
  | e :: rest, q => some (rest.foldl (nearer q) e)

/-! ## The association loop of `main` -/

/-- The variables the association loop updates: `es_poses`, `gt_poses`, `n_skipped`. -/
structure AssocState (P : Type) where
  es_poses : List P
  gt_poses : List P
  n_skipped : Nat
  deriving DecidableEq, Repr

/-- The state before the first iteration: both vectors empty, `n_skipped = 0`. -/
def AssocState.init {P : Type} : AssocState P :=
  { es_poses := [], gt_poses := [], n_skipped := 0 }

/-- The body of `for(const auto& it : es_stamped_poses)` (lines 108-124):
lookup at `it.first + offset_nsec`, `CHECK(success)`, the tolerance test
`std::abs(gt_stamp - it.first + offset_nsec) > max_diff_nsec`, then either
`++n_skipped; continue;` or the two `push_back`s. -/
def loopBody {P V : Type} (getTransformationFromVec7 : V → P) (gt_data : Buffer V)
    (offset_nsec max_diff_nsec : Int) (st : AssocState P) (it : Int × P) :
    Except Fatal (AssocState P) :=
  match getNearestValue gt_data (it.1 + offset_nsec) with
  | none => Except.error Fatal.checkFailed
  | some (gt_stamp, gt_pose_data) =>
    if std_abs (gt_stamp - it.1 + offset_nsec) > max_diff_nsec then
      Except.ok { st with n_skipped := st.n_skipped + 1 }
    else
      Except.ok { es_poses := st.es_poses ++ [it.2]
                  gt_poses := st.gt_poses ++ [getTransformationFromVec7 gt_pose_data]
                  n_skipped := st.n_skipped }

/-- The loop over `es_stamped_poses`, from a given state; it stops at the first failed
`CHECK`. -/
def associationLoopFrom {P V : Type} (getTransformationFromVec7 : V → P) (gt_data : Buffer V)
    (offset_nsec max_diff_nsec : Int) :
    List (Int × P) → AssocState P → Except Fatal (AssocState P)
  | [], st => Except.ok st
  | it :: rest, st =>
    match loopBody getTransformationFromVec7 gt_data offset_nsec max_diff_nsec st it with
    | Except.error e => Except.error e
    | Except.ok st' =>
      associationLoopFrom getTransformationFromVec7 gt_data offset_nsec max_diff_nsec rest st'

/-- Lines 100-126 of `main`: the association loop started from empty vectors. -/
def associationLoop {P V : Type} (getTransformationFromVec7 : V → P) (gt_data : Buffer V)
    (offset_nsec max_diff_nsec : Int) (es_stamped_poses : List (Int × P)) :
    Except Fatal (AssocState P) :=
  associationLoopFrom getTransformationFromVec7 gt_data offset_nsec max_diff_nsec
    es_stamped_poses AssocState.init



/-- The test of lines 113-120 on one estimate sample: `true` when the lookup succeeds and
the sample passes the tolerance test (it reaches the two `push_back`s). -/
def keptSample {P V : Type} (gt_data : Buffer V) (offset_nsec max_diff_nsec : Int)
    (it : Int × P) : Bool :=
  match getNearestValue gt_data (it.1 + offset_nsec) with
  | none => false
  | some (gt_stamp, _) => !decide (std_abs (gt_stamp - it.1 + offset_nsec) > max_diff_nsec)

/-- The groundtruth pose line 123 builds for an estimate sample: the transformation of the
data returned by the lookup at `it.first + offset_nsec`, if the lookup succeeds. -/
def matchedPose {P V : Type} (getTransformationFromVec7 : V → P) (gt_data : Buffer V)
    (offset_nsec : Int) (it : Int × P) : Option P :=
  (getNearestValue gt_data (it.1 + offset_nsec)).map
    (fun r => getTransformationFromVec7 r.2)

/-! ## Loading the two trajectories -/

/-- The three classes `loadData` instantiates. -/
inductive SeriesKind where
  | SWEResultSeries
  | EurocResultSeries
  | PoseSeries
  deriving DecidableEq, Repr

/-- A loaded series: the object behind the (non-null) `ze::PoseSeries::Ptr`. -/
structure PoseSeries (V : Type) where
  kind : SeriesKind
  buffer : Buffer V

/-- Lines 49-75.  `load kind datapath` is the buffer content after `series->load(datapath)`
on a fresh object of class `kind`; the parsers live outside this file. -/
def loadData {V : Type} (load : SeriesKind → String → Buffer V) (format datapath : String) :
    Except Fatal (PoseSeries V) :=
  if format = "swe" then
    Except.ok { kind := SeriesKind.SWEResultSeries, buffer := load SeriesKind.SWEResultSeries datapath }
  else if format = "euroc" then
    Except.ok { kind := SeriesKind.EurocResultSeries, buffer := load SeriesKind.EurocResultSeries datapath }
  else if format = "pose" then
    Except.ok { kind := SeriesKind.PoseSeries, buffer := load SeriesKind.PoseSeries datapath }
  else
    Except.error (Fatal.unsupportedFormat format)

/-- The gflags of the node with their defaults (lines 35-47).  A `double` flag is the
rational number it holds. -/
structure Flags where
  data_dir : String := "."
  filename_es : String := "traj_es.csv"
  filename_gt : String := "traj_gt.csv"
  filename_result_prefix : String := "traj_relative_errors"
  format_es : String := "pose"
  format_gt : String := "pose"
  offset_sec : ℚ := 0
  max_difference_sec : ℚ := 2 / 100
  segment_length : ℚ := 50
  skip_frames : ℚ := 10
  least_squares_align : Bool := false
  least_squares_align_translation_only : Bool := false
  least_squares_align_range : ℚ := 2 / 10

/-- The functions of other ze packages that `main` calls.  `E` is `ze::RelativeError`. -/
structure Collaborators (P V E : Type) where
  /-- `series->load(datapath)` for each series class. -/
  load : SeriesKind → String → Buffer V
  /-- `ze::joinPath`. -/
  joinPath : String → String → String
  /-- `ze::secToNanosec`. -/
  secToNanosec : ℚ → Int
  /-- `PoseSeries::getStampedTransformationVector`. -/
  getStampedTransformationVector : PoseSeries V → List (Int × P)
  /-- `PoseSeries::getTransformationFromVec7`. -/
  getTransformationFromVec7 : V → P
  /-- `ze::calcSequenceErrors(gt_poses, es_poses, segment_length, skip_frames,
  least_squares_align, least_squares_align_range, least_squares_align_translation_only)`. -/
  calcSequenceErrors : List P → List P → ℚ → ℚ → Bool → ℚ → Bool → List E

/-- Lines 86-135 of `main`: load the groundtruth, load the estimate, associate, compute the
relative errors.  The result is the vector `errors`. -/
def mainComputeErrors {P V E : Type} (c : Collaborators P V E) (flags : Flags) :
    Except Fatal (List E) :=
  match loadData c.load flags.format_gt (c.joinPath flags.data_dir flags.filename_gt) with
  | Except.error e => Except.error e
  | Except.ok gt_data =>
    match loadData c.load flags.format_es (c.joinPath flags.data_dir flags.filename_es) with
    | Except.error e => Except.error e
    | Except.ok es_data =>
      match associationLoop c.getTransformationFromVec7 gt_data.buffer
          (c.secToNanosec flags.offset_sec) (c.secToNanosec flags.max_difference_sec)
          (c.getStampedTransformationVector es_data) with
      | Except.error e => Except.error e
      | Except.ok st =>
        Except.ok (c.calcSequenceErrors st.gt_poses st.es_poses flags.segment_length
          flags.skip_frames flags.least_squares_align flags.least_squares_align_range
          flags.least_squares_align_translation_only)

/-! ## The result file -/

/-- The conversion `static_cast<int>(x)` of a `double`: the fractional part is discarded
(integer division of numerator by denominator, rounding toward zero); `none` when the
truncated value is not representable in a 32-bit `int`, where C++ leaves the behaviour
undefined. -/
def static_cast_int (x : ℚ) : Option Int :=
  let z := Int.tdiv x.num (x.den : Int)
  if -2147483648 ≤ z ∧ z ≤ 2147483647 then some z else none

/-- The `std::to_string(int)`: the decimal digits, with a leading `-` for negatives. -/
def to_string (n : Int) : String := Int.repr n

/-- Lines 138-140: `FLAGS_filename_result_prefix + "_" +
std::to_string(static_cast<int>(FLAGS_segment_length)) + ".csv"`. -/
def filename_result ( filename_result_prefix : String) (segment_length : ℚ) : Option String :=
  match static_cast_int segment_length with
  | none => none
  | some n => some ( filename_result_prefix ++ "_" ++ to_string n ++ ".csv")

/-- A `ze::Vector3` read through `.x()`, `.y()`, `.z()`. -/
structure Vector3 (R : Type) where
  x : R
  y : R
  z : R

/-- The fields of `ze::RelativeError` the writer reads.  `I` is the type of the two counters,
`R` is `real_t`. -/
structure RelativeError (I R : Type) where
  first_frame : I
  W_t_gt_es : Vector3 R
  W_R_gt_es : Vector3 R
  len : R
  num_frames : I
  scale_error : R

/-- The string literal of line 144. -/
def csvHeader : String :=
  "# First frame index, err-tx, err-ty, err-tz, err-ax, err-ay, err-az, length, num frames, err-scale\n"

/-- Lines 147-156: the ten insertions of one loop iteration into the stream `fs`;
`putI` and `putR` are `operator<<` for the counter type and for `real_t`. -/
def writeRow {I R : Type} (putI : I → String) (putR : R → String) (fs : String)
    (err : RelativeError I R) : String :=
  fs ++ putI err.first_frame ++ ", "
     ++ putR err.W_t_gt_es.x ++ ", "
     ++ putR err.W_t_gt_es.y ++ ", "
     ++ putR err.W_t_gt_es.z ++ ", "
     ++ putR err.W_R_gt_es.x ++ ", "
     ++ putR err.W_R_gt_es.y ++ ", "
     ++ putR err.W_R_gt_es.z ++ ", "
     ++ putR err.len ++ ", "
     ++ putI err.num_frames ++ ", "
     ++ putR err.scale_error ++ "\n"

/-- Lines 142-158: the content of the result file once `fs` is closed. -/
def writeResult {I R : Type} (putI : I → String) (putR : R → String)
    (errors : List (RelativeError I R)) : String :=
  errors.foldl (writeRow putI putR) ("" ++ csvHeader)

/-- The column names of the documented CSV format, in order. -/
def csvColumns : List String :=
  ["First frame index", "err-tx", "err-ty", "err-tz", "err-ax", "err-ay", "err-az",
   "length", "num frames", "err-scale"]

/-- The fields of one record of the documented CSV format, in column order. -/
def csvFields {I R : Type} (putI : I → String) (putR : R → String)
    (err : RelativeError I R) : List String :=
  [putI err.first_frame, putR err.W_t_gt_es.x, putR err.W_t_gt_es.y, putR err.W_t_gt_es.z,
   putR err.W_R_gt_es.x, putR err.W_R_gt_es.y, putR err.W_R_gt_es.z,
   putR err.len, putI err.num_frames, putR err.scale_error]

/-- One row of the documented CSV format: the fields joined by `", "`, then a newline. -/
def csvRow {I R : Type} (putI : I → String) (putR : R → String)
    (err : RelativeError I R) : String :=
  String.intercalate ", " (csvFields putI putR err) ++ "\n"

/-! ## `camera_utils.h` -/

/-- The template `isVisible(image_width, image_height, px)` (lines 11-22). -/
def isVisible {S : Type} [Zero S] [LE S] [LT S] [DecidableRel (fun a b : S => a ≤ b)]
    [DecidableRel (fun a b : S => a < b)] (image_width image_height : S) (px : Fin 2 → S) :
    Bool :=
  decide (px 0 ≥ 0)
    && decide (px 1 ≥ 0)
    && decide (px 0 < image_width)
    && decide (px 1 < image_height)

/-- The template `isVisibleWithMargin(image_width, image_height, px, margin)`
(lines 24-36). -/
def isVisibleWithMarginPx {S : Type} [Sub S] [LE S] [LT S]
    [DecidableRel (fun a b : S => a ≤ b)] [DecidableRel (fun a b : S => a < b)]
    (image_width image_height : S) (px : Fin 2 → S) (margin : S) : Bool :=
  decide (px 0 ≥ margin)
    && decide (px 1 ≥ margin)
    && decide (px 0 < image_width - margin)
    && decide (px 1 < image_height - margin)

/-- The overload `isVisibleWithMargin(image_width, image_height, x, y, margin)` on `int`
(lines 38-46). -/
def isVisibleWithMargin (image_width image_height x y margin : Int) : Bool :=
  decide (x ≥ margin)
    && decide (y ≥ margin)
    && decide (x < image_width - margin)
    && decide (y < image_height - margin)

/-! ## `imu_types.hpp` -/

/-- A fixed-size column vector with `m` coefficients. -/
abbrev Vec (R : Type) (m : Nat) := Fin m → R

/-- An `Eigen::VectorBlock<_, n>` of a vector with `m` coefficients: the `n` consecutive
coefficients starting at `start`.  A block is a view: it reads and writes the coefficients
of the vector it was taken from. -/
structure VectorBlock (m n : Nat) where
  start : Nat
  inBounds : start + n ≤ m

/-- Reading coefficient `i` of a block of `v` reads coefficient `start + i` of `v`. -/
def VectorBlock.read {R : Type} {m n : Nat} (b : VectorBlock m n) (v : Vec R m) : Vec R n :=
  fun i => v ⟨b.start + i.val, by have := b.inBounds; have := i.isLt; omega⟩

/-- Assigning `w` to a block of `v` overwrites coefficients `start .. start + n - 1` of `v`
and no other. -/
def VectorBlock.write {R : Type} {m n : Nat} (b : VectorBlock m n) (v : Vec R m)
    (w : Vec R n) : Vec R m :=
  fun j =>
    if h : b.start ≤ j.val ∧ j.val < b.start + n then w ⟨j.val - b.start, by omega⟩ else v j

/-- Eigen `head<n>()`: the block of the first `n` coefficients. -/
def head {m : Nat} (n : Nat) (h : n ≤ m) : VectorBlock m n :=
  { start := 0, inBounds := by omega }

/-- Eigen `tail<n>()`: the block of the last `n` coefficients, starting at `size() - n`. -/
def tail {m : Nat} (n : Nat) (h : n ≤ m) : VectorBlock m n :=
  { start := m - n, inBounds := by omega }

/-- An `ImuAccGyr`: a `Vector6`. -/
abbrev ImuAccGyr (R : Type) := Vec R 6

/-- The mutable overload of `getAcc` (lines 44-48): the block `imu.head<3>()`. -/
def getAccBlock : VectorBlock 6 3 := head 3 (by decide)

/-- The mutable overload of `getGyr` (lines 50-54): the block `imu.tail<3>()`. -/
def getGyrBlock : VectorBlock 6 3 := tail 3 (by decide)

/-- The const overload of `getAcc` (lines 32-36): `imu.head<3>()` read. -/
def getAcc {R : Type} (imu : ImuAccGyr R) : Vec R 3 := (head 3 (by decide)).read imu

/-- The const overload of `getGyr` (lines 38-42): `imu.tail<3>()` read. -/
def getGyr {R : Type} (imu : ImuAccGyr R) : Vec R 3 := (tail 3 (by decide)).read imu

/-! ## A concrete instance, for evaluating the definitions -/

/-- Collaborators over strings: every file holds the single entry `(0, datapath)`, paths are
joined with `/`, seconds are converted by truncating `seconds * 10^9`, and the relative
errors are just the numbers of groundtruth and estimate poses. -/
def exampleCollaborators : Collaborators String String Nat where
  load := fun _ datapath => [(0, datapath)]
  joinPath := fun dir file => dir ++ "/" ++ file
  secToNanosec := fun sec => Int.tdiv (sec * 1000000000).num ((sec * 1000000000).den : Int)
  getStampedTransformationVector := fun series => series.buffer
  getTransformationFromVec7 := fun v => v
  calcSequenceErrors := fun gt_poses es_poses _ _ _ _ _ => [gt_poses.length, es_poses.length]

/-! ## Lemmas: the nearest-entry lookup -/

theorem std_abs_eq_abs (x : Int) : std_abs x = |x| := by
  unfold std_abs
  split_ifs with h
  · exact (abs_of_neg h).symm
  · exact (abs_of_nonneg (not_lt.mp h)).symm

theorem nearer_eq_or {V : Type} (q : Int) (best cand : Int × V) :
    nearer q best cand = best ∨ nearer q best cand = cand := by
  unfold nearer
  split_ifs
  · exact Or.inr rfl
  · exact Or.inl rfl

theorem nearer_le_left {V : Type} (q : Int) (best cand : Int × V) :
    |(nearer q best cand).1 - q| ≤ |best.1 - q| := by
  unfold nearer
  simp only [std_abs_eq_abs]
  split_ifs with h
  · exact le_of_lt h
  · exact le_refl _

theorem nearer_le_right {V : Type} (q : Int) (best cand : Int × V) :
    |(nearer q best cand).1 - q| ≤ |cand.1 - q| := by
  unfold nearer
  simp only [std_abs_eq_abs]
  split_ifs with h
  · exact le_refl _
  · exact not_lt.mp h

theorem foldl_nearer_mem {V : Type} (q : Int) (rest : List (Int × V)) (e : Int × V) :
    rest.foldl (nearer q) e = e ∨ rest.foldl (nearer q) e ∈ rest := by
  induction rest generalizing e with
  | nil => exact Or.inl rfl
  | cons c rest ih =>
    simp only [List.foldl_cons, List.mem_cons]
    rcases ih (nearer q e c) with h | h
    · rcases nearer_eq_or q e c with h2 | h2
      · exact Or.inl (h.trans h2)
      · exact Or.inr (Or.inl (h.trans h2))
    · exact Or.inr (Or.inr h)

theorem foldl_nearer_le {V : Type} (q : Int) (rest : List (Int × V)) (e : Int × V) :
    |(rest.foldl (nearer q) e).1 - q| ≤ |e.1 - q| ∧
      ∀ c ∈ rest, |(rest.foldl (nearer q) e).1 - q| ≤ |c.1 - q| := by
  induction rest generalizing e with
  | nil => simp
  | cons c rest ih =>
    simp only [List.foldl_cons, List.mem_cons]
    obtain ⟨h1, h2⟩ := ih (nearer q e c)
    refine ⟨le_trans h1 (nearer_le_left q e c), ?_⟩
    intro d hd
    rcases hd with rfl | hd
    · exact le_trans h1 (nearer_le_right q e d)
    · exact h2 d hd

/-- The lookup fails exactly on the empty buffer. -/
theorem getNearestValue_eq_none_iff {V : Type} (buf : Buffer V) (q : Int) :
    getNearestValue buf q = none ↔ buf = [] := by
  cases buf <;> simp [getNearestValue]

/-- A successful lookup returns a stored entry. -/
theorem getNearestValue_mem {V : Type} (buf : Buffer V) (q : Int) (r : Int × V)
    (h : getNearestValue buf q = some r) : r ∈ buf := by
  cases buf with
  | nil => simp [getNearestValue] at h
  | cons e rest =>
    simp only [getNearestValue, Option.some.injEq] at h
    subst h
    rcases foldl_nearer_mem q rest e with h | h
    · rw [h]; exact List.mem_cons_self _ _
    · exact List.mem_cons_of_mem _ h

/-- A successful lookup returns an entry at least as close to the query as any other. -/
theorem getNearestValue_le {V : Type} (buf : Buffer V) (q : Int) (r : Int × V)
    (h : getNearestValue buf q = some r) : ∀ e ∈ buf, |r.1 - q| ≤ |e.1 - q| := by
  cases buf with
  | nil => simp [getNearestValue] at h
  | cons e rest =>
    simp only [getNearestValue, Option.some.injEq] at h
    subst h
    intro d hd
    rcases List.mem_cons.mp hd with rfl | hd
    · exact (foldl_nearer_le q rest d).1
    · exact (foldl_nearer_le q rest e).2 d hd

/-- On a non-empty buffer every lookup succeeds. -/
theorem getNearestValue_isSome {V : Type} (buf : Buffer V) (q : Int) (h : buf ≠ []) :
    ∃ r, getNearestValue buf q = some r := by
  cases buf with
  | nil => exact absurd rfl h
  | cons e rest => exact ⟨_, rfl⟩

/-! ## Lemmas: the association loop -/

/-- One iteration whose lookup succeeded: the sample is skipped when the tolerance test of
line 116 fires, and appended to both vectors otherwise. -/
theorem loopBody_of_lookup {P V : Type} (f : V → P) (gt_data : Buffer V)
    (offset_nsec max_diff_nsec : Int) (st : AssocState P) (it : Int × P)
    (gt_stamp : Int) (gt_pose_data : V)
    (h : getNearestValue gt_data (it.1 + offset_nsec) = some (gt_stamp, gt_pose_data)) :
    loopBody f gt_data offset_nsec max_diff_nsec st it =
      if std_abs (gt_stamp - it.1 + offset_nsec) > max_diff_nsec then
        Except.ok { st with n_skipped := st.n_skipped + 1 }
      else
        Except.ok { es_poses := st.es_poses ++ [it.2]
                    gt_poses := st.gt_poses ++ [f gt_pose_data]
                    n_skipped := st.n_skipped } := by
  simp only [loopBody, h]

/-- One iteration whose lookup failed: the `CHECK` aborts the run. -/
theorem loopBody_of_lookup_failed {P V : Type} (f : V → P) (gt_data : Buffer V)
    (offset_nsec max_diff_nsec : Int) (st : AssocState P) (it : Int × P)
    (h : getNearestValue gt_data (it.1 + offset_nsec) = none) :
    loopBody f gt_data offset_nsec max_diff_nsec st it = Except.error Fatal.checkFailed := by
  simp only [loopBody, h]

/-- On a non-empty groundtruth buffer the loop runs to completion from any state; it appends
the kept samples, in order, to `es_poses`, their matched groundtruth poses to `gt_poses`,
and counts the others in `n_skipped`. -/
theorem associationLoopFrom_ok {P V : Type} (f : V → P) (gt_data : Buffer V)
    (offset_nsec max_diff_nsec : Int) (hgt : gt_data ≠ []) (es : List (Int × P))
    (st0 : AssocState P) :
    ∃ st, associationLoopFrom f gt_data offset_nsec max_diff_nsec es st0 = Except.ok st ∧
      st.es_poses = st0.es_poses
        ++ (es.filter (keptSample gt_data offset_nsec max_diff_nsec)).map Prod.snd ∧
      st.gt_poses.map some = st0.gt_poses.map some
        ++ (es.filter (keptSample gt_data offset_nsec max_diff_nsec)).map
            (matchedPose f gt_data offset_nsec) ∧
      st.n_skipped = st0.n_skipped
        + (es.filter (fun it => !keptSample gt_data offset_nsec max_diff_nsec it)).length := by
  induction es generalizing st0 with
  | nil => exact ⟨st0, rfl, by simp, by simp, by simp⟩
  | cons it rest ih =>
    obtain ⟨⟨gt_stamp, d⟩, hr⟩ := getNearestValue_isSome gt_data (it.1 + offset_nsec) hgt
    have hb := loopBody_of_lookup f gt_data offset_nsec max_diff_nsec st0 it gt_stamp d hr
    by_cases ht : std_abs (gt_stamp - it.1 + offset_nsec) > max_diff_nsec
    · rw [if_pos ht] at hb
      have hk : keptSample gt_data offset_nsec max_diff_nsec it = false := by
        simp [keptSample, hr, ht]
      obtain ⟨st, h1, h2, h3, h4⟩ := ih { st0 with n_skipped := st0.n_skipped + 1 }
      refine ⟨st, ?_, ?_, ?_, ?_⟩
      · simp only [associationLoopFrom, hb]; exact h1
      · simpa [List.filter_cons, hk] using h2
      · simpa [List.filter_cons, hk] using h3
      · simp only [List.filter_cons, hk, h4]
        simp
        omega
    · rw [if_neg ht] at hb
      have hk : keptSample gt_data offset_nsec max_diff_nsec it = true := by
        simp [keptSample, hr, ht]
      obtain ⟨st, h1, h2, h3, h4⟩ := ih
        { es_poses := st0.es_poses ++ [it.2], gt_poses := st0.gt_poses ++ [f d],
          n_skipped := st0.n_skipped }
      refine ⟨st, ?_, ?_, ?_, ?_⟩
      · simp only [associationLoopFrom, hb]; exact h1
      · simpa [List.filter_cons, hk] using h2
      · simpa [List.filter_cons, hk, matchedPose, hr] using h3
      · simpa [List.filter_cons, hk] using h4

/-- With groundtruth timestamps pairwise more than 10 ms apart, the lookup 5 ms after a
stored timestamp returns that very entry. -/
theorem getNearestValue_of_gap {V : Type} (gt_data : Buffer V)
    (hp : gt_data.Pairwise (fun a b => a.1 + 10000000 < b.1)) (e : Int × V)
    (he : e ∈ gt_data) : getNearestValue gt_data (e.1 + 5000000) = some e := by
  obtain ⟨r, hr⟩ := getNearestValue_isSome gt_data (e.1 + 5000000) (List.ne_nil_of_mem he)
  have hmem := getNearestValue_mem gt_data _ r hr
  have hle := getNearestValue_le gt_data _ r hr e he
  rw [hr]
  congr 1
  by_contra hne
  have hsym : gt_data.Pairwise
      (fun a b => a.1 + 10000000 < b.1 ∨ b.1 + 10000000 < a.1) :=
    hp.imp (fun h => Or.inl h)
  have hd := List.Pairwise.forall (fun a b h => Or.symm h) hsym hmem he hne
  have h5 : |e.1 - (e.1 + 5000000)| = 5000000 := by
    rw [show e.1 - (e.1 + 5000000) = -5000000 by ring]; rfl
  rw [h5] at hle
  have := abs_le.mp hle
  omega

/-- The consecutive-gap condition on the timestamps gives the pairwise one on the entries. -/
theorem pairwise_of_chain_gap {V : Type} (gt_data : Buffer V)
    (hgap : List.Chain' (fun a b : Int => a + 10000000 < b) (gt_data.map Prod.fst)) :
    gt_data.Pairwise (fun a b => a.1 + 10000000 < b.1) := by
  haveI : IsTrans Int (fun a b : Int => a + 10000000 < b) :=
    ⟨fun a b c h1 h2 => by omega⟩
  have := List.chain'_iff_pairwise.mp hgap
  exact List.pairwise_map.mp this

/-- Samples 5 ms after stored groundtruth entries, no offset, tolerance at least 5 ms: every
sample is appended together with the pose of its entry. -/
theorem associationLoopFrom_shifted_keep {P V : Type} (f : V → P) (gt_data : Buffer V)
    (hp : gt_data.Pairwise (fun a b => a.1 + 10000000 < b.1)) (max_diff_nsec : Int)
    (hmd : 5000000 ≤ max_diff_nsec) (gs : List (Int × V)) :
    ∀ (es : List (Int × P)) (st0 : AssocState P), (∀ g ∈ gs, g ∈ gt_data) →
      es.map Prod.fst = gs.map (fun e => e.1 + 5000000) →
      associationLoopFrom f gt_data 0 max_diff_nsec es st0 =
        Except.ok { es_poses := st0.es_poses ++ es.map Prod.snd
                    gt_poses := st0.gt_poses ++ gs.map (fun e => f e.2)
                    n_skipped := st0.n_skipped } := by
  induction gs with
  | nil =>
    intro es st0 _ hes
    have : es = [] := by simpa using hes
    subst this
    simp [associationLoopFrom]
  | cons g gs ih =>
    intro es st0 hmem hes
    cases es with
    | nil => simp at hes
    | cons it rest =>
      simp only [List.map_cons, List.cons.injEq] at hes
      obtain ⟨hit, hrest⟩ := hes
      have hl : getNearestValue gt_data (it.1 + 0) = some (g.1, g.2) := by
        rw [add_zero, hit]
        exact getNearestValue_of_gap gt_data hp g (hmem g (List.mem_cons_self _ _))
      have hb := loopBody_of_lookup f gt_data 0 max_diff_nsec st0 it g.1 g.2 hl
      have ht : ¬ std_abs (g.1 - it.1 + 0) > max_diff_nsec := by
        rw [hit, std_abs_eq_abs, show g.1 - (g.1 + 5000000) + 0 = -5000000 by ring]
        have : |(-5000000 : Int)| = 5000000 := rfl
        omega
      rw [if_neg ht] at hb
      simp only [associationLoopFrom, hb]
      rw [ih rest _ (fun x hx => hmem x (List.mem_cons_of_mem _ hx)) hrest]
      simp

/-- Samples 5 ms after stored groundtruth entries, no offset, tolerance below 5 ms: every
sample is skipped. -/
theorem associationLoopFrom_shifted_drop {P V : Type} (f : V → P) (gt_data : Buffer V)
    (hp : gt_data.Pairwise (fun a b => a.1 + 10000000 < b.1)) (max_diff_nsec : Int)
    (hmd : max_diff_nsec < 5000000) (gs : List (Int × V)) :
    ∀ (es : List (Int × P)) (st0 : AssocState P), (∀ g ∈ gs, g ∈ gt_data) →
      es.map Prod.fst = gs.map (fun e => e.1 + 5000000) →
      associationLoopFrom f gt_data 0 max_diff_nsec es st0 =
        Except.ok { st0 with n_skipped := st0.n_skipped + es.length } := by
  induction gs with
  | nil =>
    intro es st0 _ hes
    have : es = [] := by simpa using hes
    subst this
    simp [associationLoopFrom]
  | cons g gs ih =>
    intro es st0 hmem hes
    cases es with
    | nil => simp at hes
    | cons it rest =>
      simp only [List.map_cons, List.cons.injEq] at hes
      obtain ⟨hit, hrest⟩ := hes
      have hl : getNearestValue gt_data (it.1 + 0) = some (g.1, g.2) := by
        rw [add_zero, hit]
        exact getNearestValue_of_gap gt_data hp g (hmem g (List.mem_cons_self _ _))
      have hb := loopBody_of_lookup f gt_data 0 max_diff_nsec st0 it g.1 g.2 hl
      have ht : std_abs (g.1 - it.1 + 0) > max_diff_nsec := by
        rw [hit, std_abs_eq_abs, show g.1 - (g.1 + 5000000) + 0 = -5000000 by ring]
        have : |(-5000000 : Int)| = 5000000 := rfl
        omega
      rw [if_pos ht] at hb
      simp only [associationLoopFrom, hb]
      rw [ih rest _ (fun x hx => hmem x (List.mem_cons_of_mem _ hx)) hrest]
      simp only [List.length_cons]
      congr 2
      omega

/-! ## The association loop: tolerance test, failed lookups, alignment -/

/-- C1 (code defect).  Line 116 tests `std::abs(gt_stamp - it.first + offset_nsec)`, which
is `|gt_stamp - t + offset_nsec|` and not `|gt_stamp - (t + offset_nsec)|`.  With the
groundtruth entry at 1 s, the estimate sample at `t = 0`, `offset_nsec = 1000000000` (1 s)
and `max_diff_nsec = 20000000` (the default 20 ms): the lookup at `t + offset_nsec`
succeeds with `gt_stamp = 1000000000`, the distance to the query is `0`, not above the
tolerance, and yet the loop body skips the sample (`n_skipped` becomes 1, nothing is
appended). -/
theorem C1_tolerance_test_adds_offset :
    getNearestValue [((1000000000 : Int), "gt")] (0 + 1000000000) =
      some (1000000000, "gt") ∧
    ¬ (|(1000000000 : Int) - (0 + 1000000000)| > 20000000) ∧
    loopBody (fun v : String => v) [(1000000000, "gt")] 1000000000 20000000
        AssocState.init (0, "es") =
      Except.ok { es_poses := [], gt_poses := [], n_skipped := 1 } :=
  ⟨rfl, by decide, rfl⟩

/-- C2, as stated, fails: with an empty groundtruth buffer and one estimate sample the
association loop does not complete with an empty pair list, it aborts on `CHECK(success)`. -/
theorem C2_empty_groundtruth_aborts :
    associationLoop (fun v : String => v) [] 0 20000000 [(0, "es0")] =
      Except.error Fatal.checkFailed :=
  rfl

/-- C2 (amended).  An empty estimate sequence yields empty vectors and `n_skipped = 0`
whatever the groundtruth buffer is; with an empty groundtruth buffer and a non-empty
estimate sequence the run aborts on `CHECK(success)` at the first sample. -/
theorem C2_failed_lookup_is_fatal {P V : Type} (f : V → P) (offset_nsec max_diff_nsec : Int) :
    (∀ gt_data : Buffer V,
        associationLoop f gt_data offset_nsec max_diff_nsec ([] : List (Int × P)) =
          Except.ok { es_poses := [], gt_poses := [], n_skipped := 0 }) ∧
    (∀ (it : Int × P) (rest : List (Int × P)),
        associationLoop f ([] : Buffer V) offset_nsec max_diff_nsec (it :: rest) =
          Except.error Fatal.checkFailed) := by
  refine ⟨fun _ => rfl, fun it rest => ?_⟩
  have hb := loopBody_of_lookup_failed f ([] : Buffer V) offset_nsec max_diff_nsec
    AssocState.init it rfl
  simp only [associationLoop, associationLoopFrom, hb]

/-- C3, as stated for every groundtruth series, fails: on the empty groundtruth buffer with
one estimate sample the loop produces no vectors at all. -/
theorem C3_no_output_on_empty_groundtruth :
    ¬ ∃ st : AssocState String,
      associationLoop (fun v : String => v) [] 0 0 [(7, "es7")] = Except.ok st ∧
        st.es_poses.length = st.gt_poses.length := by
  rintro ⟨st, h, _⟩
  exact Except.noConfusion h

/-- C3 (amended).  When the groundtruth buffer is non-empty, or the estimate sequence is
empty, the association loop completes, and its vectors `es_poses` and `gt_poses` have equal
length; `es_poses` is the poses of the kept samples in estimate order, a sublist of the
estimate poses; `gt_poses[i]` is the transformation of the entry the lookup returned for the
`i`-th kept sample. -/
theorem C3_index_aligned_pairs {P V : Type} (f : V → P) (gt_data : Buffer V)
    (offset_nsec max_diff_nsec : Int) (es : List (Int × P))
    (h : gt_data ≠ [] ∨ es = []) :
    ∃ st, associationLoop f gt_data offset_nsec max_diff_nsec es = Except.ok st ∧
      st.es_poses.length = st.gt_poses.length ∧
      st.es_poses = (es.filter (keptSample gt_data offset_nsec max_diff_nsec)).map Prod.snd ∧
      List.Sublist st.es_poses (es.map Prod.snd) ∧
      st.gt_poses.map some = (es.filter (keptSample gt_data offset_nsec max_diff_nsec)).map
        (matchedPose f gt_data offset_nsec) := by
  rcases h with h | h
  · obtain ⟨st, h1, h2, h3, _⟩ :=
      associationLoopFrom_ok f gt_data offset_nsec max_diff_nsec h es AssocState.init
    simp only [AssocState.init, List.nil_append, List.map_nil] at h2 h3
    refine ⟨st, h1, ?_, h2, ?_, h3⟩
    · have := congrArg List.length h3
      simp only [List.length_map] at this
      rw [h2, List.length_map, this]
    · rw [h2]
      exact List.Sublist.map _ (List.filter_sublist _)
  · subst h
    exact ⟨AssocState.init, rfl, rfl, rfl, List.Sublist.refl _, rfl⟩

/-- C3 (amended), at a concrete input: three groundtruth entries, three estimate samples. -/
theorem C3_index_aligned_pairs_witness :
    ([((0 : Int), "g0"), (100, "g1"), (200, "g2")] ≠ [] ∨
        [((3 : Int), "e0"), (150, "e1"), (199, "e2")] = []) ∧
    ∃ st, associationLoop (fun v : String => v) [(0, "g0"), (100, "g1"), (200, "g2")] 0 5
        [(3, "e0"), (150, "e1"), (199, "e2")] = Except.ok st ∧
      st.es_poses.length = st.gt_poses.length ∧
      st.es_poses = ([((3 : Int), "e0"), (150, "e1"), (199, "e2")].filter
        (keptSample [(0, "g0"), (100, "g1"), (200, "g2")] 0 5)).map Prod.snd ∧
      List.Sublist st.es_poses ([((3 : Int), "e0"), (150, "e1"), (199, "e2")].map Prod.snd) ∧
      st.gt_poses.map some = ([((3 : Int), "e0"), (150, "e1"), (199, "e2")].filter
        (keptSample [(0, "g0"), (100, "g1"), (200, "g2")] 0 5)).map
        (matchedPose (fun v : String => v) [(0, "g0"), (100, "g1"), (200, "g2")] 0) :=
  ⟨Or.inl (by simp),
   C3_index_aligned_pairs (fun v : String => v) [(0, "g0"), (100, "g1"), (200, "g2")] 0 5
     [(3, "e0"), (150, "e1"), (199, "e2")] (Or.inl (by simp))⟩

/-- C4.  Groundtruth timestamps increasing with consecutive gaps above 10 ms, estimate
timestamps equal to the groundtruth timestamps plus 5 ms, `offset_nsec = 0`.  With
`max_diff_nsec = 20000000` the loop keeps every sample: `es_poses` is all estimate poses,
`gt_poses` the poses of all groundtruth entries, nothing is skipped.  With
`max_diff_nsec = 1000000` the loop skips every sample and both vectors stay empty. -/
theorem C4_five_ms_shift_scenario {P V : Type} (f : V → P) (gt_data : Buffer V)
    (es : List (Int × P))
    (hgap : List.Chain' (fun a b : Int => a + 10000000 < b) (gt_data.map Prod.fst))
    (hes : es.map Prod.fst = gt_data.map (fun e => e.1 + 5000000)) :
    (∃ st, associationLoop f gt_data 0 20000000 es = Except.ok st ∧
        st.es_poses = es.map Prod.snd ∧
        st.gt_poses = gt_data.map (fun e => f e.2) ∧
        st.es_poses.length = es.length ∧
        st.gt_poses.length = es.length ∧
        st.n_skipped = 0) ∧
    associationLoop f gt_data 0 1000000 es =
      Except.ok { es_poses := [], gt_poses := [], n_skipped := es.length } := by
  have hp := pairwise_of_chain_gap gt_data hgap
  have hlen : gt_data.length = es.length := by
    have := congrArg List.length hes
    simpa using this.symm
  constructor
  · refine ⟨_, associationLoopFrom_shifted_keep f gt_data hp 20000000 (by decide) gt_data es
      AssocState.init (fun _ hg => hg) hes, ?_, ?_, ?_, ?_, ?_⟩
    · simp [AssocState.init]
    · simp [AssocState.init]
    · simp [AssocState.init]
    · simp [AssocState.init, hlen]
    · rfl
  · have := associationLoopFrom_shifted_drop f gt_data hp 1000000 (by decide) gt_data es
      AssocState.init (fun _ hg => hg) hes
    simpa [associationLoop, AssocState.init] using this

/-- C4, at a concrete input: groundtruth at 0 ms, 20 ms and 50 ms, estimate at 5 ms, 25 ms
and 55 ms. -/
theorem C4_five_ms_shift_scenario_witness :
    (∃ st, associationLoop (fun v : String => v)
          [(0, "g0"), (20000000, "g1"), (50000000, "g2")] 0 20000000
          [(5000000, "e0"), (25000000, "e1"), (55000000, "e2")] = Except.ok st ∧
        st.es_poses = [((5000000 : Int), "e0"), (25000000, "e1"), (55000000, "e2")].map Prod.snd ∧
        st.gt_poses = [((0 : Int), "g0"), (20000000, "g1"), (50000000, "g2")].map
          (fun e => (fun v : String => v) e.2) ∧
        st.es_poses.length = [((5000000 : Int), "e0"), (25000000, "e1"), (55000000, "e2")].length ∧
        st.gt_poses.length = [((5000000 : Int), "e0"), (25000000, "e1"), (55000000, "e2")].length ∧
        st.n_skipped = 0) ∧
    associationLoop (fun v : String => v)
        [(0, "g0"), (20000000, "g1"), (50000000, "g2")] 0 1000000
        [(5000000, "e0"), (25000000, "e1"), (55000000, "e2")] =
      Except.ok { es_poses := [], gt_poses := [],
                  n_skipped := [((5000000 : Int), "e0"), (25000000, "e1"), (55000000, "e2")].length } :=
  C4_five_ms_shift_scenario (fun v : String => v)
    [(0, "g0"), (20000000, "g1"), (50000000, "g2")]
    [(5000000, "e0"), (25000000, "e1"), (55000000, "e2")] (by simp) (by decide)

/-- C5 (code defect, the same line 116 as C1).  With `max_diff_nsec = 0`,
`offset_nsec = 1000000000` (1 s), the groundtruth entry at 1 s and the estimate sample at
`t = 2000000000`: the query timestamp is 3 s, the matched groundtruth timestamp is 1 s, they
differ, no groundtruth timestamp equals the query, and yet the loop keeps the sample and the
pair list is not empty. -/
theorem C5_zero_tolerance_keeps_mismatch :
    getNearestValue [((1000000000 : Int), "gt")] (2000000000 + 1000000000) =
      some (1000000000, "gt") ∧
    (1000000000 : Int) ≠ 2000000000 + 1000000000 ∧
    associationLoop (fun v : String => v) [(1000000000, "gt")] 1000000000 0
        [(2000000000, "es")] =
      Except.ok { es_poses := ["es"], gt_poses := ["gt"], n_skipped := 0 } :=
  ⟨rfl, by decide, rfl⟩

/-! ## Lemmas: the CSV writer -/

theorem string_join_cons (a : String) (l : List String) :
    String.join (a :: l) = a ++ String.join l := by
  apply String.ext
  simp [String.data_join]

/-- One loop iteration appends one row of the documented format to the stream. -/
theorem writeRow_eq {I R : Type} (putI : I → String) (putR : R → String) (fs : String)
    (err : RelativeError I R) :
    writeRow putI putR fs err = fs ++ csvRow putI putR err := by
  simp [writeRow, csvRow, csvFields, String.intercalate, String.intercalate.go,
    String.append_assoc]

/-- The writer loop appends the rows of the records, in order, to the stream. -/
theorem foldl_writeRow_eq {I R : Type} (putI : I → String) (putR : R → String)
    (errors : List (RelativeError I R)) (fs : String) :
    errors.foldl (writeRow putI putR) fs
      = fs ++ String.join (errors.map (csvRow putI putR)) := by
  induction errors generalizing fs with
  | nil => simp [String.join]
  | cons e rest ih =>
    rw [List.foldl_cons, ih, writeRow_eq, List.map_cons, string_join_cons,
      String.append_assoc]

/-! ## Loading: unsupported formats -/

/-- C6.  `loadData` ends in `LOG(FATAL)` exactly when `format` is none of the strings
`"pose"`, `"euroc"`, `"swe"`; for each of the three it returns a series of the matching class
loaded from `datapath`.  In `main` the groundtruth is loaded first, the estimate second, both
before the association loop: an unsupported `format_gt`, or a supported `format_gt` with an
unsupported `format_es`, makes the run end with the unsupported-format failure whatever the
files, the lookup and the error computation would have given. -/
theorem C6_unsupported_format_is_fatal {P V E : Type} (c : Collaborators P V E)
    (format datapath : String) (flags : Flags) :
    (loadData c.load format datapath = Except.error (Fatal.unsupportedFormat format) ↔
        (format ≠ "pose" ∧ format ≠ "euroc" ∧ format ≠ "swe")) ∧
    ((∃ series, loadData c.load format datapath = Except.ok series) ↔
        (format = "pose" ∨ format = "euroc" ∨ format = "swe")) ∧
    loadData c.load "pose" datapath = Except.ok
      { kind := SeriesKind.PoseSeries, buffer := c.load SeriesKind.PoseSeries datapath } ∧
    loadData c.load "euroc" datapath = Except.ok
      { kind := SeriesKind.EurocResultSeries
        buffer := c.load SeriesKind.EurocResultSeries datapath } ∧
    loadData c.load "swe" datapath = Except.ok
      { kind := SeriesKind.SWEResultSeries
        buffer := c.load SeriesKind.SWEResultSeries datapath } ∧
    ((flags.format_gt ≠ "pose" ∧ flags.format_gt ≠ "euroc" ∧ flags.format_gt ≠ "swe") →
        mainComputeErrors c flags = Except.error (Fatal.unsupportedFormat flags.format_gt)) ∧
    ((flags.format_gt = "pose" ∨ flags.format_gt = "euroc" ∨ flags.format_gt = "swe") →
      (flags.format_es ≠ "pose" ∧ flags.format_es ≠ "euroc" ∧ flags.format_es ≠ "swe") →
        mainComputeErrors c flags = Except.error (Fatal.unsupportedFormat flags.format_es)) := by
  have hbad : ∀ (fmt path : String), (fmt ≠ "pose" ∧ fmt ≠ "euroc" ∧ fmt ≠ "swe") →
      loadData c.load fmt path = Except.error (Fatal.unsupportedFormat fmt) := by
    intro fmt path h
    simp [loadData, h.1, h.2.1, h.2.2]
  have hgood : ∀ (fmt path : String), (fmt = "pose" ∨ fmt = "euroc" ∨ fmt = "swe") →
      ∃ series, loadData c.load fmt path = Except.ok series := by
    intro fmt path h
    rcases h with rfl | rfl | rfl
    · exact ⟨_, rfl⟩
    · exact ⟨_, rfl⟩
    · exact ⟨_, rfl⟩
  refine ⟨⟨?_, hbad format datapath⟩, ⟨?_, hgood format datapath⟩, by simp [loadData],
    by simp [loadData], by simp [loadData], ?_, ?_⟩
  · intro h
    by_contra hn
    have hs : format = "pose" ∨ format = "euroc" ∨ format = "swe" := by tauto
    obtain ⟨series, hser⟩ := hgood format datapath hs
    rw [hser] at h
    exact Except.noConfusion h
  · rintro ⟨series, hser⟩
    by_contra hn
    have hs : format ≠ "pose" ∧ format ≠ "euroc" ∧ format ≠ "swe" := by tauto
    rw [hbad format datapath hs] at hser
    exact Except.noConfusion hser
  · intro h
    simp only [mainComputeErrors, hbad _ _ h]
  · intro hgt hes
    obtain ⟨series, hser⟩ := hgood flags.format_gt
      (c.joinPath flags.data_dir flags.filename_gt) hgt
    simp only [mainComputeErrors, hser, hbad _ _ hes]

/-- C6, at concrete inputs: the format `"kitti"`, and a groundtruth in format `"euroc"` with
an estimate in format `"Pose"` (the comparison is case-sensitive). -/
theorem C6_unsupported_format_is_fatal_witness :
    loadData exampleCollaborators.load "kitti" "./traj_gt.csv" =
      Except.error (Fatal.unsupportedFormat "kitti") ∧
    mainComputeErrors exampleCollaborators { format_gt := "kitti" } =
      Except.error (Fatal.unsupportedFormat "kitti") ∧
    mainComputeErrors exampleCollaborators { format_gt := "euroc", format_es := "Pose" } =
      Except.error (Fatal.unsupportedFormat "Pose") :=
  ⟨(C6_unsupported_format_is_fatal exampleCollaborators "kitti" "./traj_gt.csv" {}).1.mpr
      (by decide),
   (C6_unsupported_format_is_fatal exampleCollaborators "kitti" "./traj_gt.csv"
      { format_gt := "kitti" }).2.2.2.2.2.1 (by decide),
   (C6_unsupported_format_is_fatal exampleCollaborators "kitti" "./traj_gt.csv"
      { format_gt := "euroc", format_es := "Pose" }).2.2.2.2.2.2 (by decide) (by decide)⟩

/-! ## The result file: content and name -/

/-- C7.  The text written to the result file is the header line of line 144 followed by one
row per record of `errors`, in the order of the list.  A row is the ten fields
`first_frame`, `W_t_gt_es` x, y, z, `W_R_gt_es` x, y, z, `len`, `num_frames`, `scale_error`,
each as `operator<<` prints it, joined by `", "` and ended by a newline.  The header is `# `
followed by the ten column names joined by `", "` and a newline, so that the `i`-th column
name stands over the `i`-th field. -/
theorem C7_csv_text {I R : Type} (putI : I → String) (putR : R → String)
    (errors : List (RelativeError I R)) :
    writeResult putI putR errors =
      "# First frame index, err-tx, err-ty, err-tz, err-ax, err-ay, err-az, length, num frames, err-scale\n"
        ++ String.join (errors.map (csvRow putI putR)) ∧
    (errors.map (csvRow putI putR)).length = errors.length ∧
    (∀ err : RelativeError I R,
      csvRow putI putR err = String.intercalate ", "
        [putI err.first_frame, putR err.W_t_gt_es.x, putR err.W_t_gt_es.y, putR err.W_t_gt_es.z,
         putR err.W_R_gt_es.x, putR err.W_R_gt_es.y, putR err.W_R_gt_es.z,
         putR err.len, putI err.num_frames, putR err.scale_error] ++ "\n" ∧
      (csvFields putI putR err).length = 10) ∧
    "# First frame index, err-tx, err-ty, err-tz, err-ax, err-ay, err-az, length, num frames, err-scale\n"
      = "# " ++ String.intercalate ", " csvColumns ++ "\n" ∧
    csvColumns.length = 10 := by
  refine ⟨?_, by simp, fun err => ⟨rfl, rfl⟩, by decide, rfl⟩
  unfold writeResult
  rw [foldl_writeRow_eq]
  rfl

/-- Integer division of numerator by denominator rounding toward zero is the floor of a
non-negative rational and the ceiling of a negative one. -/
theorem tdiv_num_den_eq (x : ℚ) :
    Int.tdiv x.num (x.den : Int) = if 0 ≤ x then ⌊x⌋ else ⌈x⌉ := by
  split_ifs with h
  · rw [Int.tdiv_eq_ediv (Rat.num_nonneg.mpr h) (Int.natCast_nonneg _), Rat.floor_def]
  · have hneg : 0 ≤ -x := by
      have := not_le.mp h
      linarith
    have h1 : Int.tdiv x.num (x.den : Int) = -Int.tdiv (-x).num ((-x).den : Int) := by
      rw [Rat.num_neg_eq_neg_num, Rat.den_neg_eq_den, Int.neg_tdiv, neg_neg]
    rw [h1, Int.tdiv_eq_ediv (Rat.num_nonneg.mpr hneg) (Int.natCast_nonneg _),
      ← Rat.floor_def, Int.floor_neg, neg_neg]

/-- In the range where the conversion to `int` is defined, `static_cast<int>` returns the
truncation toward zero. -/
theorem static_cast_int_eq (x : ℚ) (hlo : -2147483649 < x) (hhi : x < 2147483648) :
    static_cast_int x = some (if 0 ≤ x then ⌊x⌋ else ⌈x⌉) := by
  unfold static_cast_int
  simp only [tdiv_num_den_eq]
  rw [if_pos]
  split_ifs with h
  · constructor
    · have : (0 : Int) ≤ ⌊x⌋ := Int.floor_nonneg.mpr h
      omega
    · have h1 : (⌊x⌋ : ℚ) ≤ x := Int.floor_le x
      have h2 : (⌊x⌋ : ℚ) < 2147483648 := lt_of_le_of_lt h1 hhi
      have h3 : ⌊x⌋ < 2147483648 := by exact_mod_cast h2
      omega
  · constructor
    · have h1 : x ≤ (⌈x⌉ : ℚ) := Int.le_ceil x
      have h2 : (-2147483649 : ℚ) < (⌈x⌉ : ℚ) := lt_of_lt_of_le hlo h1
      have h3 : -2147483649 < ⌈x⌉ := by exact_mod_cast h2
      omega
    · have : ⌈x⌉ ≤ 0 := Int.ceil_le.mpr (by push_cast; exact le_of_lt (not_le.mp h))
      omega

/-- C8.  The result filename is the prefix, `_`, the decimal digits of
`static_cast<int>(segment_length)` and `.csv`.  For a whole number `n` in the range of `int`
the digits are those of `n`; with the default flags the name is
`traj_relative_errors_50.csv`; for any `segment_length` whose truncation fits an `int` the
digits are those of the truncation toward zero (the floor of a non-negative value, the
ceiling of a negative one). -/
theorem C8_result_filename ( pre : String) :
    (∀ n : Int, -2147483648 ≤ n → n ≤ 2147483647 →
        filename_result pre (n : ℚ) = some ( pre ++ "_" ++ Int.repr n ++ ".csv")) ∧
    filename_result ( Flags.filename_result_prefix {}) (Flags.segment_length {}) =
      some "traj_relative_errors_50.csv" ∧
    (∀ x : ℚ, -2147483649 < x → x < 2147483648 →
        filename_result pre x =
          some ( pre ++ "_" ++ Int.repr (if 0 ≤ x then ⌊x⌋ else ⌈x⌉) ++ ".csv")) := by
  have htrunc : ∀ x : ℚ, -2147483649 < x → x < 2147483648 →
      filename_result pre x =
        some ( pre ++ "_" ++ Int.repr (if 0 ≤ x then ⌊x⌋ else ⌈x⌉) ++ ".csv") := by
    intro x hlo hhi
    simp only [filename_result, static_cast_int_eq x hlo hhi, to_string]
  refine ⟨?_, rfl, htrunc⟩
  intro n hlo hhi
  have h1 : (-2147483649 : ℚ) < (n : ℚ) := by
    have : (-2147483649 : Int) < n := by omega
    exact_mod_cast this
  have h2 : (n : ℚ) < 2147483648 := by
    have : n < (2147483648 : Int) := by omega
    exact_mod_cast this
  rw [htrunc (n : ℚ) h1 h2]
  have h3 : (if 0 ≤ (n : ℚ) then ⌊(n : ℚ)⌋ else ⌈(n : ℚ)⌉) = n := by
    split_ifs
    · exact Int.floor_intCast n
    · exact Int.ceil_intCast n
  rw [h3]

/-- C8, at concrete inputs: the whole number 100, and the non-integral lengths 101/2 and
-7/2, which are rendered as 50 and -3. -/
theorem C8_result_filename_witness :
    filename_result "traj_relative_errors" ((100 : Int) : ℚ) =
      some "traj_relative_errors_100.csv" ∧
    filename_result "traj_relative_errors" (101 / 2) = some "traj_relative_errors_50.csv" ∧
    filename_result "traj_relative_errors" (-7 / 2) = some "traj_relative_errors_-3.csv" := by
  have hw := (C8_result_filename "traj_relative_errors").1 100 (by decide) (by decide)
  have hp := (C8_result_filename "traj_relative_errors").2.2 (101 / 2) (by norm_num)
    (by norm_num)
  have hn := (C8_result_filename "traj_relative_errors").2.2 (-7 / 2) (by norm_num)
    (by norm_num)
  have f1 : ⌊(101 / 2 : ℚ)⌋ = 50 := by
    rw [Int.floor_eq_iff]; norm_num
  have f2 : ⌈(-7 / 2 : ℚ)⌉ = -3 := by
    rw [Int.ceil_eq_iff]; norm_num
  have p1 : (0 : ℚ) ≤ 101 / 2 := by norm_num
  have p2 : ¬ (0 : ℚ) ≤ -7 / 2 := by norm_num
  rw [if_pos p1, f1] at hp
  rw [if_neg p2, f2] at hn
  exact ⟨hw, hp, hn⟩

/-! ## Visibility with margin -/

/-- C9.  For `margin ≥ 0` the `int` overload of `isVisibleWithMargin` returns `true` exactly
when `0 ≤ x - margin`, `x + margin < image_width`, `0 ≤ y - margin` and
`y + margin < image_height`, which is exactly when every pixel `(x + dx, y + dy)` with
`|dx| ≤ margin` and `|dy| ≤ margin` is visible; the template overload gives the same result
on the same integer coordinates. -/
theorem C9_visible_with_margin_iff (image_width image_height x y margin : Int)
    (hm : 0 ≤ margin) :
    (isVisibleWithMargin image_width image_height x y margin = true ↔
        (0 ≤ x - margin ∧ x + margin < image_width ∧
          0 ≤ y - margin ∧ y + margin < image_height)) ∧
    (isVisibleWithMargin image_width image_height x y margin = true ↔
        ∀ dx dy : Int, |dx| ≤ margin → |dy| ≤ margin →
          isVisible image_width image_height ![x + dx, y + dy] = true) ∧
    isVisibleWithMarginPx image_width image_height ![x, y] margin =
      isVisibleWithMargin image_width image_height x y margin := by
  have hiff : isVisibleWithMargin image_width image_height x y margin = true ↔
      (0 ≤ x - margin ∧ x + margin < image_width ∧
        0 ≤ y - margin ∧ y + margin < image_height) := by
    simp only [isVisibleWithMargin, Bool.and_eq_true, decide_eq_true_eq, ge_iff_le]
    constructor
    · rintro ⟨⟨⟨h1, h2⟩, h3⟩, h4⟩
      exact ⟨by omega, by omega, by omega, by omega⟩
    · rintro ⟨h1, h2, h3, h4⟩
      exact ⟨⟨⟨by omega, by omega⟩, by omega⟩, by omega⟩
  refine ⟨hiff, ?_, ?_⟩
  · rw [hiff]
    constructor
    · rintro ⟨h1, h2, h3, h4⟩ dx dy hdx hdy
      have hx := abs_le.mp hdx
      have hy := abs_le.mp hdy
      simp only [isVisible, Bool.and_eq_true, decide_eq_true_eq, ge_iff_le,
        Matrix.cons_val_zero, Matrix.cons_val_one, Matrix.head_cons]
      exact ⟨⟨⟨by omega, by omega⟩, by omega⟩, by omega⟩
    · intro h
      have hmabs : |margin| ≤ margin := le_of_eq (abs_of_nonneg hm)
      have hnabs : |(-margin)| ≤ margin := by rw [abs_neg]; exact hmabs
      have hlo := h (-margin) (-margin) hnabs hnabs
      have hhi := h margin margin hmabs hmabs
      simp only [isVisible, Bool.and_eq_true, decide_eq_true_eq, ge_iff_le,
        Matrix.cons_val_zero, Matrix.cons_val_one, Matrix.head_cons] at hlo hhi
      obtain ⟨⟨⟨l1, l2⟩, _⟩, _⟩ := hlo
      obtain ⟨⟨_, u3⟩, u4⟩ := hhi
      exact ⟨by omega, by omega, by omega, by omega⟩
  · simp only [isVisibleWithMarginPx, isVisibleWithMargin, Matrix.cons_val_zero,
      Matrix.cons_val_one, Matrix.head_cons]

/-- C9, at a concrete input: a 640 x 480 image, the pixel (10, 20), margin 5. -/
theorem C9_visible_with_margin_iff_witness :
    (0 : Int) ≤ 5 ∧
    isVisibleWithMargin 640 480 10 20 5 = true ∧
    (∀ dx dy : Int, |dx| ≤ 5 → |dy| ≤ 5 →
      isVisible (640 : Int) 480 ![10 + dx, 20 + dy] = true) ∧
    isVisibleWithMarginPx (640 : Int) 480 ![10, 20] 5 = true :=
  ⟨by decide,
   by decide,
   ((C9_visible_with_margin_iff 640 480 10 20 5 (by decide)).2.1).mp (by decide),
   ((C9_visible_with_margin_iff 640 480 10 20 5 (by decide)).2.2).trans (by decide)⟩

/-! ## Accelerometer and gyroscope blocks -/

/-- C10.  `getAcc(imu)` is `(imu[0], imu[1], imu[2])` and `getGyr(imu)` is
`(imu[3], imu[4], imu[5])`; the two blocks share no coefficient; `getAcc(imu)` followed by
`getGyr(imu)` is `imu`.  The mutable overloads view the same coefficients as the const ones;
assigning `w` through `getAcc` makes `getAcc` read `w`, leaves coefficients 3..5 and thus
`getGyr` unchanged, and assigning through `getGyr` makes `getGyr` read `w` and leaves
coefficients 0..2 and thus `getAcc` unchanged. -/
theorem C10_acc_gyr_blocks {R : Type} (imu : ImuAccGyr R) (w : Vec R 3) :
    getAcc imu = ![imu 0, imu 1, imu 2] ∧
    getGyr imu = ![imu 3, imu 4, imu 5] ∧
    (∀ i j : Fin 3, getAccBlock.start + i.val ≠ getGyrBlock.start + j.val) ∧
    Fin.append (getAcc imu) (getGyr imu) = imu ∧
    getAccBlock.read imu = getAcc imu ∧
    getGyrBlock.read imu = getGyr imu ∧
    getAcc (getAccBlock.write imu w) = w ∧
    (∀ j : Fin 6, 3 ≤ j.val → getAccBlock.write imu w j = imu j) ∧
    getGyr (getAccBlock.write imu w) = getGyr imu ∧
    getGyr (getGyrBlock.write imu w) = w ∧
    (∀ j : Fin 6, j.val < 3 → getGyrBlock.write imu w j = imu j) ∧
    getAcc (getGyrBlock.write imu w) = getAcc imu := by
  refine ⟨?_, ?_, ?_, ?_, rfl, rfl, ?_, ?_, ?_, ?_, ?_, ?_⟩
  · funext i
    fin_cases i <;> rfl
  · funext i
    fin_cases i <;> rfl
  · intro i j
    have := i.isLt
    simp only [getAccBlock, getGyrBlock, head, tail]
    omega
  · funext j
    fin_cases j <;> rfl
  · funext i
    fin_cases i <;> rfl
  · intro j hj
    have hlt := j.isLt
    simp only [VectorBlock.write, getAccBlock, head]
    rw [dif_neg (by omega)]
  · funext i
    fin_cases i <;> rfl
  · funext i
    fin_cases i <;> rfl
  · intro j hj
    simp only [VectorBlock.write, getGyrBlock, tail]
    rw [dif_neg (by omega)]
  · funext i
    fin_cases i <;> rfl

/-! ## Lemmas: the skipped count -/

/-- In a run of the association loop in which every lookup succeeds, the loop completes and
every estimate sample is counted exactly once: `es_poses` has one pose per sample that
passes the test of line 116, `n_skipped` counts the samples that do not, and so
`n_skipped + es_poses.size()` is the number of estimate samples and `n_skipped` is that
number minus the number of matches.  When the test
`std::abs(gt_stamp - it.first + offset_nsec) > max_diff_nsec` fires for every sample, the
loop still completes, with both vectors empty and `n_skipped` equal to the number of
samples; for `offset_nsec = 0` the tested quantity is the distance `|gt_stamp - t|` between
the matched timestamp and the query. -/
theorem associationLoop_skipped_count {P V : Type} (f : V → P) (gt_data : Buffer V)
    (offset_nsec max_diff_nsec : Int) (es : List (Int × P))
    (hall : ∀ it ∈ es, ∃ r, getNearestValue gt_data (it.1 + offset_nsec) = some r) :
    ∃ st, associationLoop f gt_data offset_nsec max_diff_nsec es = Except.ok st ∧
      st.n_skipped + st.es_poses.length = es.length ∧
      st.n_skipped = es.length - st.es_poses.length ∧
      st.es_poses.length =
        (es.filter (keptSample gt_data offset_nsec max_diff_nsec)).length ∧
      st.n_skipped =
        (es.filter (fun it => !keptSample gt_data offset_nsec max_diff_nsec it)).length ∧
      ((∀ it ∈ es, ∀ r, getNearestValue gt_data (it.1 + offset_nsec) = some r →
          std_abs (r.1 - it.1 + offset_nsec) > max_diff_nsec) →
        st = { es_poses := [], gt_poses := [], n_skipped := es.length }) ∧
      (offset_nsec = 0 →
        (∀ it ∈ es, ∀ r, getNearestValue gt_data (it.1 + offset_nsec) = some r →
          |r.1 - (it.1 + offset_nsec)| > max_diff_nsec) →
        st = { es_poses := [], gt_poses := [], n_skipped := es.length }) := by
  cases es with
  | nil =>
    exact ⟨AssocState.init, rfl, rfl, rfl, rfl, rfl, fun _ => rfl, fun _ _ => rfl⟩
  | cons it0 rest =>
    have hgt : gt_data ≠ [] := by
      obtain ⟨r, hr⟩ := hall it0 (List.mem_cons_self _ _)
      intro hnil
      rw [(getNearestValue_eq_none_iff gt_data _).mpr hnil] at hr
      exact Option.noConfusion hr
    obtain ⟨st, h1, h2, h3, h4⟩ := associationLoopFrom_ok f gt_data offset_nsec
      max_diff_nsec hgt (it0 :: rest) AssocState.init
    simp only [AssocState.init, List.nil_append, List.map_nil, Nat.zero_add] at h2 h3 h4
    have hk : st.es_poses.length = ((it0 :: rest).filter
        (keptSample gt_data offset_nsec max_diff_nsec)).length := by
      rw [h2, List.length_map]
    have hpart := List.length_eq_length_filter_add
      (keptSample gt_data offset_nsec max_diff_nsec) (l := it0 :: rest)
    have hdrop : (∀ it ∈ it0 :: rest, ∀ r,
        getNearestValue gt_data (it.1 + offset_nsec) = some r →
          std_abs (r.1 - it.1 + offset_nsec) > max_diff_nsec) →
        st = { es_poses := [], gt_poses := [], n_skipped := (it0 :: rest).length } := by
      intro hex
      have hnone : (it0 :: rest).filter (keptSample gt_data offset_nsec max_diff_nsec)
          = [] := by
        rw [List.filter_eq_nil_iff]
        intro it hit
        obtain ⟨r, hr⟩ := hall it hit
        have := hex it hit r hr
        simp [keptSample, hr, this]
      rw [hnone] at h2 h3 hpart
      simp only [List.map_nil, List.map_eq_nil_iff] at h2 h3
      simp only [List.length_nil, Nat.zero_add] at hpart
      obtain ⟨e, g, n⟩ := st
      simp only at h2 h3 h4
      subst h2 h3
      rw [h4, ← hpart]
    refine ⟨st, h1, ?_, ?_, hk, h4, hdrop, ?_⟩
    · rw [h4, hk, hpart]; omega
    · rw [h4, hk, hpart]; omega
    · intro h0 hex
      apply hdrop
      intro it hit r hr
      have := hex it hit r hr
      rw [std_abs_eq_abs]
      rw [h0] at this ⊢
      rwa [show r.1 - it.1 + 0 = r.1 - (it.1 + 0) by ring]

/-- The counting lemma at a concrete input: groundtruth at 0 ms and 40 ms, estimate at 1 ms
and 90 ms, no offset.  With the default tolerance of 20 ms the two counters add up to 2;
with tolerance 0 both samples are skipped and the loop completes with empty vectors. -/
theorem associationLoop_skipped_count_example :
    (∀ it ∈ [((1000000 : Int), "e0"), (90000000, "e1")],
        ∃ r, getNearestValue [((0 : Int), "g0"), (40000000, "g1")] (it.1 + 0) = some r) ∧
    (∃ st, associationLoop (fun v : String => v) [(0, "g0"), (40000000, "g1")] 0 20000000
          [(1000000, "e0"), (90000000, "e1")] = Except.ok st ∧
        st.n_skipped + st.es_poses.length = 2) ∧
    associationLoop (fun v : String => v) [(0, "g0"), (40000000, "g1")] 0 0
        [(1000000, "e0"), (90000000, "e1")] =
      Except.ok { es_poses := [], gt_poses := [], n_skipped := 2 } := by
  have hall : ∀ it ∈ [((1000000 : Int), "e0"), (90000000, "e1")],
      ∃ r, getNearestValue [((0 : Int), "g0"), (40000000, "g1")] (it.1 + 0) = some r :=
    fun _ _ => ⟨_, rfl⟩
  have hex : ∀ it ∈ [((1000000 : Int), "e0"), (90000000, "e1")], ∀ r,
      getNearestValue [((0 : Int), "g0"), (40000000, "g1")] (it.1 + 0) = some r →
        std_abs (r.1 - it.1 + 0) > 0 := by
    intro it hit r hr
    simp only [List.mem_cons, List.mem_singleton, List.not_mem_nil, or_false] at hit
    rcases hit with rfl | rfl
    · have h : getNearestValue [((0 : Int), "g0"), (40000000, "g1")] (1000000 + 0)
          = some (0, "g0") := rfl
      rw [h] at hr
      injection hr with hr
      subst hr
      decide
    · have h : getNearestValue [((0 : Int), "g0"), (40000000, "g1")] (90000000 + 0)
          = some (40000000, "g1") := rfl
      rw [h] at hr
      injection hr with hr
      subst hr
      decide
  refine ⟨hall, ?_, ?_⟩
  · obtain ⟨st, h1, h2, _⟩ := associationLoop_skipped_count (fun v : String => v)
      [(0, "g0"), (40000000, "g1")] 0 20000000 [(1000000, "e0"), (90000000, "e1")] hall
    exact ⟨st, h1, h2⟩
  · obtain ⟨st, h1, _, _, _, _, h6, _⟩ := associationLoop_skipped_count (fun v : String => v)
      [(0, "g0"), (40000000, "g1")] 0 0 [(1000000, "e0"), (90000000, "e1")] hall
    rw [h1, h6 hex]
    rfl

/-! ## The association loop: samples beyond the tolerance -/

/-- C11 (code defect, the same line 116 as C1 and C5).  Groundtruth with the single entry at
1 s, estimate samples at 2 s and 2.5 s, `offset_nsec = 1000000000` (1 s) and
`max_diff_nsec = 20000000` (the default 20 ms).  Every lookup succeeds and both samples
exceed the tolerance: the matched timestamp is 2 s and 2.5 s away from the queries at 3 s
and 3.5 s.  The loop completes, but not with zero pairs and `n_skipped = 2`: line 116
computes `|1000000000 - 2000000000 + 1000000000| = 0` for the first sample and keeps it, so
the result is one pair and `n_skipped = 1`. -/
theorem C11_sample_beyond_tolerance_kept :
    (∀ it ∈ [((2000000000 : Int), "e0"), (2500000000, "e1")],
        ∃ r, getNearestValue [((1000000000 : Int), "g0")] (it.1 + 1000000000) = some r ∧
          |r.1 - (it.1 + 1000000000)| > 20000000) ∧
    associationLoop (fun v : String => v) [(1000000000, "g0")] 1000000000 20000000
        [(2000000000, "e0"), (2500000000, "e1")] =
      Except.ok { es_poses := ["e0"], gt_poses := ["g0"], n_skipped := 1 } := by
  refine ⟨?_, rfl⟩
  intro it hit
  simp only [List.mem_cons, List.mem_singleton, List.not_mem_nil, or_false] at hit
  rcases hit with rfl | rfl
  · exact ⟨(1000000000, "g0"), rfl, by decide⟩
  · exact ⟨(1000000000, "g0"), rfl, by decide⟩

/-! ## Visibility: relations between the predicates -/

/-- C12.  On integer coordinates `isVisibleWithMargin` with margin 0 is `isVisible`; a pixel
visible with margin `margin` is visible with every margin `m ≤ margin`, hence, for
`margin ≥ 0`, it is visible; and when `2 * margin ≥ image_width` or
`2 * margin ≥ image_height` no pixel is visible with that margin. -/
theorem C12_visibility_relations (image_width image_height x y margin : Int) :
    isVisibleWithMargin image_width image_height x y 0 =
      isVisible image_width image_height ![x, y] ∧
    (∀ m : Int, m ≤ margin →
      isVisibleWithMargin image_width image_height x y margin = true →
        isVisibleWithMargin image_width image_height x y m = true) ∧
    (0 ≤ margin →
      isVisibleWithMargin image_width image_height x y margin = true →
        isVisible image_width image_height ![x, y] = true) ∧
    ((2 * margin ≥ image_width ∨ 2 * margin ≥ image_height) →
      isVisibleWithMargin image_width image_height x y margin = false) := by
  have h0 : isVisibleWithMargin image_width image_height x y 0 =
      isVisible image_width image_height ![x, y] := by
    simp only [isVisibleWithMargin, isVisible, sub_zero, Matrix.cons_val_zero,
      Matrix.cons_val_one, Matrix.head_cons]
  have hanti : ∀ m : Int, m ≤ margin →
      isVisibleWithMargin image_width image_height x y margin = true →
        isVisibleWithMargin image_width image_height x y m = true := by
    intro m hm hv
    simp only [isVisibleWithMargin, Bool.and_eq_true, decide_eq_true_eq, ge_iff_le] at hv ⊢
    obtain ⟨⟨⟨h1, h2⟩, h3⟩, h4⟩ := hv
    exact ⟨⟨⟨by omega, by omega⟩, by omega⟩, by omega⟩
  refine ⟨h0, hanti, ?_, ?_⟩
  · intro hm hv
    rw [← h0]
    exact hanti 0 hm hv
  · intro hw
    rw [Bool.eq_false_iff]
    intro hv
    simp only [isVisibleWithMargin, Bool.and_eq_true, decide_eq_true_eq, ge_iff_le] at hv
    obtain ⟨⟨⟨h1, h2⟩, h3⟩, h4⟩ := hv
    rcases hw with hw | hw <;> omega

/-- C12, at concrete inputs: a 640 x 480 image; the pixel (10, 20) with margins 5 and 2, and
the pixel (320, 240) with margin 240, twice of which is the image height. -/
theorem C12_visibility_relations_witness :
    isVisibleWithMargin 640 480 10 20 2 = true ∧
    isVisible (640 : Int) 480 ![10, 20] = true ∧
    isVisibleWithMargin 640 480 320 240 240 = false :=
  ⟨(C12_visibility_relations 640 480 10 20 5).2.1 2 (by decide) (by decide),
   (C12_visibility_relations 640 480 10 20 5).2.2.1 (by decide) (by decide),
   (C12_visibility_relations 640 480 320 240 240).2.2.2 (Or.inr (by decide))⟩

end ze
